import Mathlib

/-!
# Hikma: a shallow embedding of `hikma.go`

Go strings are modelled by Lean `String` (a sequence of Unicode code points,
i.e. a valid UTF-8 Go string).  Go's builtin `len` on a string is its length
in UTF-8 *bytes*; `String.length` (code points) is a different quantity.
The database handle and the random generator are explicit parameters.
-/

namespace Hikma

/-! ## The Go library functions used by the program -/

/-- Go `unicode.IsSpace`: the Latin-1 spaces `\t \n \v \f \r`, space, U+0085,
U+00A0, and the other code points of the Unicode `White_Space` property. -/
def unicode.IsSpace (r : Char) : Bool :=
  let n := r.toNat
  (9 ≤ n && n ≤ 13) || n == 32 || n == 133 || n == 160 || n == 5760 ||
  (8192 ≤ n && n ≤ 8202) || n == 8232 || n == 8233 || n == 8239 || n == 8287 ||
  n == 12288

/-- Go builtin `len` on a string: the number of bytes of its UTF-8 encoding. -/
def len (s : String) : Nat :=
  (s.data.map Char.utf8Size).sum

/-- Go `strings.TrimSpace`: the string without its leading and trailing
white space (as defined by `unicode.IsSpace`). -/
def strings.TrimSpace (s : String) : String :=
  ⟨((s.data.dropWhile unicode.IsSpace).reverse.dropWhile unicode.IsSpace).reverse⟩

/-- The pieces of a character list between the occurrences of `sep`. -/
def strings.splitChars (sep : Char) : List Char → List (List Char)
  | [] => [[]]
  | c :: cs =>
    if c = sep then [] :: strings.splitChars sep cs
    else
      match strings.splitChars sep cs with
      | [] => [[c]]
      | l :: ls => (c :: l) :: ls

/-- Go `strings.Split(s, sep)` for a separator of one character (the program
only ever splits on the newline): all substrings of `s` between the
separators, `k + 1` pieces for `k` separators. -/
def strings.Split (s : String) (sep : Char) : List String :=
  (strings.splitChars sep s.data).map String.mk

/-! ## Types -/

/-- Source: `type Content struct { Text, Author, Sub string }`. -/
structure Content where
  Text : String
  Author : String
  Sub : String
  deriving DecidableEq, Repr

/-! ## `translateAuthor` -/

/-- The map literal `translations` of `translateAuthor`, in source order. -/
def translations : List (String × String) :=
  [("Bukhari", "الإمام البخاري"), ("Muslim", "الإمام مسلم"),
   ("Tirmidhi", "الترمذي"), ("Abu Dawood", "أبو داود"),
   ("Abudawood", "أبو داود"), ("Ibn Majah", "ابن ماجه"),
   ("Ibnmajah", "ابن ماجه"), ("Nasai", "النسائي"),
   ("Malik", "الإمام مالك"), ("Ahmed", "الإمام أحمد")]

/-- Source: `translateAuthor` (hikma.go:182-194). The map lookup is the
lookup of the (distinct) keys of the literal. -/
def translateAuthor (name : String) : String :=
  match translations.lookup (strings.TrimSpace name) with
  | some val => val
  | none => name

/-! ## Poem line cleaning (inside `getRandomRow`, hikma.go:145-151) -/

/-- Source: hikma.go:145-151.
`lines := strings.Split(c1, "\n")`, then the loop appending
`strings.TrimSpace(l)` to `cleanLines` whenever `len(strings.TrimSpace(l)) > 2`. -/
def getRandomRow.cleanLines (c1 : String) : List String :=
  (strings.Split c1 '\n').foldl
    (fun cleanLines l =>
      if len (strings.TrimSpace l) > 2 then cleanLines ++ [strings.TrimSpace l]
      else cleanLines)
    []

/-! ## The database and the random generator -/

/-- A query parameter (Go `interface{}`): the program passes strings and ints. -/
inductive Arg
  | str (s : String)
  | int (n : Int)
  deriving DecidableEq, Repr

/-- The three string columns scanned from a data row. -/
structure Row where
  c1 : String
  c2 : String
  c3 : String
  deriving DecidableEq, Repr

/-- The handle `*sql.DB`, a read-only black box answering queries.
`scanInt q args` is `db.QueryRow(q, args...).Scan(&max)` and
`scanRow q args` is `db.QueryRow(q, args...).Scan(&c1, &c2, &c3)`;
`none` stands for `err != nil` (no row, `NULL`, conversion failure).
The scanned `max` is a signed Go `int`; the program forms no value larger
than `max` from it, so no arithmetic on it can overflow. -/
structure DB where
  scanInt : String → List Arg → Option Int
  scanRow : String → List Arg → Option Row

/-- The state of the global generator of `math/rand`: the stream of raw
values it is going to produce.  A call of `rand.Seed(time.Now().UnixNano())`
installs a new, arbitrary stream. -/
abbrev Rand := Nat → Nat

/-- The result of running Go code that may panic. -/
inductive Outcome (α : Type)
  | panic
  | ret (a : α)
  deriving DecidableEq, Repr

/-- Go `rand.Intn(n)`: panics when `n <= 0` (`none`), otherwise yields a value
of `[0, n)` and advances the generator. Every value of `[0, n)` is the outcome
for some stream. -/
def rand.Intn (g : Rand) (n : Int) : Option (Nat × Rand) :=
  if n ≤ 0 then none else some (g 0 % n.toNat, fun k => g (k + 1))

/-! ## `getRandomRow` -/

/-- Source: hikma.go:100-121, the triple `(countQuery, dataQuery, args)`. -/
def getRandomRow.setup (mode eraFilter : String) : String × String × List Arg :=
  if mode = "poems" then
    if eraFilter ≠ "" then
      ("SELECT COUNT(*) FROM poetry WHERE poet_era LIKE ?",
       "SELECT poem_text, poet_name, poet_era FROM poetry WHERE poet_era LIKE ? LIMIT 1 OFFSET ?",
       [Arg.str ("%" ++ eraFilter ++ "%")])
    else
      ("SELECT MAX(id) FROM poetry",
       "SELECT poem_text, poet_name, poet_era FROM poetry WHERE id = ?",
       [])
  else
    let table := "quotes"
    let condition := if mode = "hadith" then "category = 'hadith'" else "category != 'hadith'"
    ("SELECT COUNT(*) FROM " ++ table ++ " WHERE " ++ condition,
     "SELECT text, author, category FROM " ++ table ++ " WHERE " ++ condition ++ " LIMIT 1 OFFSET ?",
     [])

/-- Source: hikma.go:153-166, the `text` of a poem row. Slice indexing out
of range and `rand.Intn` of a non-positive bound panic. -/
def getRandomRow.poemText (c1 : String) (g : Rand) : Outcome String :=
  let cleanLines := getRandomRow.cleanLines c1
  if cleanLines.length ≥ 2 then
    let idx : Option Nat :=
      if cleanLines.length > 2 then
        let limit := cleanLines.length
        let limit := if limit % 2 ≠ 0 then limit - 1 else limit
        (rand.Intn g ((limit / 2 : Nat) : Int)).map (fun p => p.1 * 2)
      else some 0
    match idx with
    | none => Outcome.panic
    | some idx =>
      match cleanLines[idx + 1]?, cleanLines[idx]? with
      | some second, some first => Outcome.ret (second ++ "   ۞   " ++ first)
      | _, _ => Outcome.panic
  else if cleanLines.length = 1 then
    match cleanLines[0]? with
    | some only => Outcome.ret only
    | none => Outcome.panic
  else Outcome.ret c1

/-- Source: hikma.go:143-176, the `Content` built from a scanned row. -/
def getRandomRow.rowContent (mode : String) (row : Row) (g : Rand) : Outcome Content :=
  if mode = "poems" then
    match getRandomRow.poemText row.c1 g with
    | Outcome.panic => Outcome.panic
    | Outcome.ret text => Outcome.ret { Text := text, Author := row.c2, Sub := row.c3 }
  else
    if row.c3 = "hadith" then
      Outcome.ret { Text := row.c1, Author := translateAuthor row.c2, Sub := "حديث نبوي" }
    else
      Outcome.ret { Text := row.c1, Author := row.c2, Sub := "Wisdom" }

/-- What a call of `getRandomRow` does: its result (`none` is the `nil`
pointer) and the data queries it issued, in order. -/
structure Run where
  result : Outcome (Option Content)
  queries : List (String × List Arg)
  deriving DecidableEq, Repr

/-- Source: hikma.go:132-139, the value appended to `args` in an iteration
that drew `r`. -/
def getRandomRow.offset (mode eraFilter : String) (r : Nat) : Int :=
  if mode = "poems" ∧ eraFilter = "" then (r : Int) + 1 else (r : Int)

/-- Source: hikma.go:132-179, the retry loop with `n` iterations left, and
the `return nil` after it. -/
def getRandomRow.loop (db : DB) (mode eraFilter dataQuery : String) (args : List Arg)
    (max : Int) : Nat → Rand → List (String × List Arg) → Run
  | 0, _, issued => { result := Outcome.ret none, queries := issued }
  | n + 1, g, issued =>
    match rand.Intn g max with
    | none => { result := Outcome.panic, queries := issued }
    | some (r, g) =>
      let finalArgs := args ++ [Arg.int (getRandomRow.offset mode eraFilter r)]
      match db.scanRow dataQuery finalArgs with
      | some row =>
        { result :=
            match getRandomRow.rowContent mode row g with
            | Outcome.panic => Outcome.panic
            | Outcome.ret c => Outcome.ret (some c),
          queries := issued ++ [(dataQuery, finalArgs)] }
      | none =>
        getRandomRow.loop db mode eraFilter dataQuery args max n g
          (issued ++ [(dataQuery, finalArgs)])

/-- Source: `getRandomRow` (hikma.go:99-180). `g` is the generator installed
by the `rand.Seed` call of line 129. -/
def getRandomRow (db : DB) (mode eraFilter : String) (g : Rand) : Run :=
  match getRandomRow.setup mode eraFilter with
  | (countQuery, dataQuery, args) =>
    match db.scanInt countQuery args with
    | none => { result := Outcome.ret none, queries := [] }
    | some max =>
      if max = 0 then { result := Outcome.ret none, queries := [] }
      else getRandomRow.loop db mode eraFilter dataQuery args max 3 g []

/-! ## `main` -/

/-- What `main` writes: the framed content (`printFancy`) or the warning
"No content found for this category." -/
inductive Output
  | fancy (c : Content)
  | noContent
  deriving DecidableEq, Repr

/-- Source: hikma.go:265-276, the value of `mode` after the `if` chain.
`g` is the generator installed by the `rand.Seed` call of line 274. -/
def main.mode (showPoems showQuotes showHadith : Bool) (eraFilter : String)
    (g : Rand) : Outcome String :=
  if showPoems ∨ eraFilter ≠ "" then Outcome.ret "poems"
  else if showQuotes then Outcome.ret "quotes"
  else if showHadith then Outcome.ret "hadith"
  else
    let modes := ["poems", "quotes", "hadith"]
    match rand.Intn g (modes.length : Int) with
    | none => Outcome.panic
    | some (r, _) =>
      match modes[r]? with
      | some m => Outcome.ret m
      | none => Outcome.panic

/-- Source: hikma.go:278-290, what follows the resolution of `mode`.
`g1`, `g2`, `g3` are the generators of the successive `getRandomRow` calls. -/
def main.show (db : DB) (mode eraFilter : String) (g1 g2 g3 : Rand) : Outcome Output :=
  let finish : Option Content → Outcome Output := fun content =>
    match content with
    | some c => Outcome.ret (Output.fancy c)
    | none => Outcome.ret Output.noContent
  match (getRandomRow db mode eraFilter g1).result with
  | Outcome.panic => Outcome.panic
  | Outcome.ret content =>
    if content = none ∧ mode = "all" then
      match (getRandomRow db "quotes" "" g2).result with
      | Outcome.panic => Outcome.panic
      | Outcome.ret content =>
        if content = none then
          match (getRandomRow db "poems" "" g3).result with
          | Outcome.panic => Outcome.panic
          | Outcome.ret content => finish content
        else finish content
    else finish content

/-- Source: `main` (hikma.go:232-291) after flag parsing, on the flag values
and the opened database. `g0` is the generator of the mode pick. -/
def main (showPoems showQuotes showHadith : Bool) (eraFilter : String) (db : DB)
    (g0 g1 g2 g3 : Rand) : Outcome Output :=
  match main.mode showPoems showQuotes showHadith eraFilter g0 with
  | Outcome.panic => Outcome.panic
  | Outcome.ret mode => main.show db mode eraFilter g1 g2 g3

/-! ## Vocabulary for statements about a run of `getRandomRow` -/

/-- The generator `g` after `n` draws. -/
def Rand.drop (g : Rand) (n : Nat) : Rand := fun k => g (k + n)

/-- The answer to the count query of line 124. -/
def getRandomRow.count (db : DB) (mode eraFilter : String) : Option Int :=
  db.scanInt (getRandomRow.setup mode eraFilter).1 (getRandomRow.setup mode eraFilter).2.2

/-- The data query (text and arguments) of the loop iteration that makes draw
number `i` (from 0) of the generator `g`, for the count `max`. -/
def getRandomRow.query (mode eraFilter : String) (max : Int) (g : Rand) (i : Nat) :
    String × List Arg :=
  ((getRandomRow.setup mode eraFilter).2.1,
   (getRandomRow.setup mode eraFilter).2.2
     ++ [Arg.int (getRandomRow.offset mode eraFilter (g i % max.toNat))])

/-- The answer of the database to the data query of iteration `i`. -/
def getRandomRow.attempt (db : DB) (mode eraFilter : String) (max : Int) (g : Rand)
    (i : Nat) : Option Row :=
  db.scanRow (getRandomRow.query mode eraFilter max g i).1
    (getRandomRow.query mode eraFilter max g i).2

/-- The run fetches `row`: the count query yields the positive `max`, and
iteration `i` of the three is the first whose data query yields a row. -/
def getRandomRow.FetchesAt (db : DB) (mode eraFilter : String) (g : Rand) (max : Int)
    (i : Nat) (row : Row) : Prop :=
  getRandomRow.count db mode eraFilter = some max ∧ 0 < max ∧ i < 3 ∧
  (∀ j, j < i → getRandomRow.attempt db mode eraFilter max g j = none) ∧
  getRandomRow.attempt db mode eraFilter max g i = some row

instance (db : DB) (mode eraFilter : String) (g : Rand) (max : Int) (i : Nat) (row : Row) :
    Decidable (getRandomRow.FetchesAt db mode eraFilter g max i row) := by
  unfold getRandomRow.FetchesAt
  infer_instance

/-! ## Sample databases -/

/-- A database with an empty poetry table (`MAX(id)` is `NULL`) and one
wisdom quote. -/
def dbQuotesOnly : DB where
  scanInt q _ :=
    if q = "SELECT COUNT(*) FROM quotes WHERE category != 'hadith'" then some 1
    else if q = "SELECT COUNT(*) FROM quotes WHERE category = 'hadith'" then some 0
    else none
  scanRow q args :=
    if q = "SELECT text, author, category FROM quotes WHERE category != 'hadith' LIMIT 1 OFFSET ?"
        ∧ args = [Arg.int 0] then
      some { c1 := "Knowledge is light", c2 := "Anonymous", c3 := "wisdom" }
    else none

/-- A poem of five clean lines. -/
def poemOfFive : Row :=
  { c1 := "aaa\nbbb\nccc\nddd\neee", c2 := "Al-Mutanabbi", c3 := "Abbasid" }

/-- A poem of one clean line (and blank lines). -/
def poemOfOne : Row :=
  { c1 := "\n  only line \n\n", c2 := "Al-Mutanabbi", c3 := "Abbasid" }

/-- A poem without a clean line. -/
def poemOfNone : Row :=
  { c1 := " ab\n\n..", c2 := "Al-Mutanabbi", c3 := "Abbasid" }

/-- A poetry table with the ids 1, 2, 3 and no quotes table content. -/
def dbPoems : DB where
  scanInt q _ := if q = "SELECT MAX(id) FROM poetry" then some 3 else none
  scanRow q args :=
    if q = "SELECT poem_text, poet_name, poet_era FROM poetry WHERE id = ?" then
      if args = [Arg.int 1] then some poemOfFive
      else if args = [Arg.int 2] then some poemOfOne
      else if args = [Arg.int 3] then some poemOfNone
      else none
    else none

/-- A hadith row as stored: Latin compiler name, category `hadith`. -/
def hadithRow : Row :=
  { c1 := "إنما الأعمال بالنيات", c2 := " Bukhari ", c3 := "hadith" }

/-- A quotes table holding one hadith and nothing else. -/
def dbHadith : DB where
  scanInt q _ :=
    if q = "SELECT COUNT(*) FROM quotes WHERE category = 'hadith'" then some 1
    else if q = "SELECT COUNT(*) FROM quotes WHERE category != 'hadith'" then some 0
    else none
  scanRow q args :=
    if q = "SELECT text, author, category FROM quotes WHERE category = 'hadith' LIMIT 1 OFFSET ?"
        ∧ args = [Arg.int 0] then some hadithRow
    else none

/-- A quotes table whose only row has an empty text and an empty author. -/
def dbBlankQuote : DB where
  scanInt q _ :=
    if q = "SELECT COUNT(*) FROM quotes WHERE category != 'hadith'" then some 1 else none
  scanRow q args :=
    if q = "SELECT text, author, category FROM quotes WHERE category != 'hadith' LIMIT 1 OFFSET ?"
        ∧ args = [Arg.int 0] then some { c1 := "", c2 := "", c3 := "wisdom" }
    else none

/-- A poetry table whose only row has the id -1, so that `MAX(id)` is -1. -/
def dbNegativeId : DB where
  scanInt q _ := if q = "SELECT MAX(id) FROM poetry" then some (-1) else none
  scanRow q args :=
    if q = "SELECT poem_text, poet_name, poet_era FROM poetry WHERE id = ?"
        ∧ args = [Arg.int (-1)] then some poemOfFive
    else none

/-! ## Library facts -/

theorem len_ge_length (s : String) : s.length ≤ len s := by
  cases s with
  | mk cs =>
    show cs.length ≤ (cs.map Char.utf8Size).sum
    induction cs with
    | nil => simp
    | cons c cs ih =>
      have hc : 0 < c.utf8Size := Char.utf8Size_pos c
      simp only [List.map_cons, List.sum_cons, List.length_cons]
      omega

theorem len_eq_zero_iff (s : String) : len s = 0 ↔ s = "" := by
  constructor
  · intro h
    have := len_ge_length s
    have h0 : s.length = 0 := by omega
    cases s with
    | mk cs =>
      have : cs = [] := List.length_eq_zero.mp h0
      subst this
      rfl
  · intro h
    subst h
    rfl

theorem splitChars_ne_nil (sep : Char) (cs : List Char) :
    strings.splitChars sep cs ≠ [] := by
  cases cs with
  | nil => simp [strings.splitChars]
  | cons c cs =>
    unfold strings.splitChars
    split
    · simp
    · split <;> simp

theorem splitChars_intercalate (sep : Char) (cs : List Char) :
    List.intercalate [sep] (strings.splitChars sep cs) = cs := by
  induction cs with
  | nil => simp [strings.splitChars, List.intercalate]
  | cons c cs ih =>
    unfold strings.splitChars
    by_cases hc : c = sep
    · rw [if_pos hc]
      have hne := splitChars_ne_nil sep cs
      cases hs : strings.splitChars sep cs with
      | nil => exact absurd hs hne
      | cons l ls =>
        rw [hs] at ih
        simp only [List.intercalate, List.intersperse, List.flatten] at ih ⊢
        rw [ih, hc]
        simp
    · rw [if_neg hc]
      cases hs : strings.splitChars sep cs with
      | nil => exact absurd hs (splitChars_ne_nil sep cs)
      | cons l ls =>
        rw [hs] at ih
        simp only [List.intercalate] at ih ⊢
        cases ls with
        | nil =>
          simp only [List.intersperse, List.flatten, List.append_nil] at ih ⊢
          rw [ih]
        | cons l2 ls =>
          simp only [List.intersperse, List.flatten, List.cons_append] at ih ⊢
          rw [ih]

theorem splitChars_no_sep (sep : Char) (cs : List Char) :
    ∀ l ∈ strings.splitChars sep cs, sep ∉ l := by
  induction cs with
  | nil => simp [strings.splitChars]
  | cons c cs ih =>
    unfold strings.splitChars
    by_cases hc : c = sep
    · rw [if_pos hc]
      intro l hl
      rcases List.mem_cons.mp hl with h | h
      · subst h; simp
      · exact ih l h
    · rw [if_neg hc]
      cases hs : strings.splitChars sep cs with
      | nil => exact absurd hs (splitChars_ne_nil sep cs)
      | cons l0 ls =>
        rw [hs] at ih
        intro l hl
        rcases List.mem_cons.mp hl with h | h
        · subst h
          intro hmem
          rcases List.mem_cons.mp hmem with h1 | h1
          · exact hc h1.symm
          · exact ih l0 (List.mem_cons_self _ _) h1
        · exact ih l (List.mem_cons_of_mem _ h)

theorem foldl_keep_eq {α β : Type} (p : β → Bool) (f : α → β) (xs : List α) (init : List β) :
    xs.foldl (fun acc l => if p (f l) then acc ++ [f l] else acc) init
      = init ++ (xs.map f).filter p := by
  induction xs generalizing init with
  | nil => simp
  | cons x xs ih =>
    simp only [List.foldl_cons, List.map_cons]
    rw [ih]
    by_cases h : p (f x) = true
    · simp [h, List.filter_cons]
    · simp [h, List.filter_cons]

theorem cleanLines_eq (c1 : String) :
    getRandomRow.cleanLines c1
      = ((strings.Split c1 '\n').map strings.TrimSpace).filter (fun t => decide (2 < len t)) := by
  unfold getRandomRow.cleanLines
  have h := foldl_keep_eq (fun t => decide (2 < len t)) strings.TrimSpace
    (strings.Split c1 '\n') []
  simp only [decide_eq_true_eq, List.nil_append] at h
  exact h

theorem mem_cleanLines_len {c1 t : String} (h : t ∈ getRandomRow.cleanLines c1) :
    2 < len t := by
  rw [cleanLines_eq] at h
  have := (List.mem_filter.mp h).2
  simpa using this

theorem translations_lookup_ne_empty (k v : String)
    (h : translations.lookup k = some v) : v ≠ "" := by
  simp only [translations, List.lookup] at h
  repeat' split at h
  all_goals first
    | (cases h; decide)
    | (exact absurd h (by simp))

theorem translateAuthor_ne_empty (name : String) (h : name ≠ "") :
    translateAuthor name ≠ "" := by
  unfold translateAuthor
  split
  · next val hv => exact translations_lookup_ne_empty _ _ hv
  · exact h

/-! ## The loop of `getRandomRow` -/

theorem Intn_of_pos (g : Rand) (n : Int) (h : 0 < n) :
    rand.Intn g n = some (g 0 % n.toNat, Rand.drop g 1) := by
  unfold rand.Intn
  rw [if_neg (by omega)]
  rfl

theorem range_succ_map {β : Type} (f : Nat → β) (n : Nat) :
    (List.range (n + 1)).map f = f 0 :: (List.range n).map (fun k => f (k + 1)) := by
  rw [List.range_succ_eq_map, List.map_cons, List.map_map]
  rfl

theorem loop_absent (db : DB) (mode era : String) (max : Int) (hmax : 0 < max) :
    ∀ (n : Nat) (g : Rand) (issued : List (String × List Arg)),
      (∀ i, i < n → getRandomRow.attempt db mode era max g i = none) →
      getRandomRow.loop db mode era (getRandomRow.setup mode era).2.1
          (getRandomRow.setup mode era).2.2 max n g issued
        = { result := Outcome.ret none,
            queries := issued ++ (List.range n).map (getRandomRow.query mode era max g) } := by
  intro n
  induction n with
  | zero => intro g issued _; simp [getRandomRow.loop]
  | succ n ih =>
    intro g issued h
    have h0 := h 0 (Nat.succ_pos n)
    unfold getRandomRow.attempt getRandomRow.query at h0
    simp only at h0
    unfold getRandomRow.loop
    rw [Intn_of_pos g max hmax]
    simp only [h0]
    have ih2 := ih (Rand.drop g 1)
      (issued ++ [getRandomRow.query mode era max g 0])
      (fun i hi => h (i + 1) (Nat.succ_lt_succ hi))
    unfold getRandomRow.query at ih2
    rw [ih2, range_succ_map (getRandomRow.query mode era max g) n]
    simp [getRandomRow.query, Rand.drop]

theorem loop_found (db : DB) (mode era : String) (max : Int) (hmax : 0 < max) :
    ∀ (n : Nat) (g : Rand) (issued : List (String × List Arg)) (i : Nat) (row : Row)
      (c : Content), i < n →
      (∀ j, j < i → getRandomRow.attempt db mode era max g j = none) →
      getRandomRow.attempt db mode era max g i = some row →
      getRandomRow.rowContent mode row (Rand.drop g (i + 1)) = Outcome.ret c →
      getRandomRow.loop db mode era (getRandomRow.setup mode era).2.1
          (getRandomRow.setup mode era).2.2 max n g issued
        = { result := Outcome.ret (some c),
            queries := issued ++ (List.range (i + 1)).map (getRandomRow.query mode era max g) } := by
  intro n
  induction n with
  | zero => intro g issued i row c hi; omega
  | succ n ih =>
    intro g issued i row c hi hfail hrow hc
    cases i with
    | zero =>
      unfold getRandomRow.attempt getRandomRow.query at hrow
      simp only at hrow
      unfold getRandomRow.loop
      rw [Intn_of_pos g max hmax]
      simp only [hrow]
      have hc2 : getRandomRow.rowContent mode row (Rand.drop g 1) = Outcome.ret c := hc
      rw [hc2]
      rfl
    | succ i =>
      have h0 := hfail 0 (Nat.succ_pos i)
      unfold getRandomRow.attempt getRandomRow.query at h0
      simp only at h0
      unfold getRandomRow.loop
      rw [Intn_of_pos g max hmax]
      simp only [h0]
      have ih2 := ih (Rand.drop g 1)
        (issued ++ [getRandomRow.query mode era max g 0]) i row c (by omega)
        (fun j hj => hfail (j + 1) (Nat.succ_lt_succ hj)) hrow hc
      unfold getRandomRow.query at ih2
      rw [ih2, range_succ_map (getRandomRow.query mode era max g) (i + 1)]
      simp [getRandomRow.query, Rand.drop]

theorem getRandomRow_unfold (db : DB) (mode era : String) (g : Rand) :
    getRandomRow db mode era g =
      match getRandomRow.count db mode era with
      | none => { result := Outcome.ret none, queries := [] }
      | some max =>
        if max = 0 then { result := Outcome.ret none, queries := [] }
        else getRandomRow.loop db mode era (getRandomRow.setup mode era).2.1
          (getRandomRow.setup mode era).2.2 max 3 g [] := by
  rfl

theorem getRandomRow_found {db : DB} {mode era : String} {g : Rand} {max : Int} {i : Nat}
    {row : Row} {c : Content} (h : getRandomRow.FetchesAt db mode era g max i row)
    (hc : getRandomRow.rowContent mode row (Rand.drop g (i + 1)) = Outcome.ret c) :
    getRandomRow db mode era g
      = { result := Outcome.ret (some c),
          queries := (List.range (i + 1)).map (getRandomRow.query mode era max g) } := by
  obtain ⟨hcount, hmax, hi, hfail, hrow⟩ := h
  rw [getRandomRow_unfold, hcount]
  simp only
  rw [if_neg (by omega), loop_found db mode era max hmax 3 g [] i row c hi hfail hrow hc]
  simp

theorem getRandomRow_all_fail {db : DB} {mode era : String} {g : Rand} {max : Int}
    (hcount : getRandomRow.count db mode era = some max) (hmax : 0 < max)
    (hfail : ∀ i, i < 3 → getRandomRow.attempt db mode era max g i = none) :
    getRandomRow db mode era g
      = { result := Outcome.ret none,
          queries := (List.range 3).map (getRandomRow.query mode era max g) } := by
  rw [getRandomRow_unfold, hcount]
  simp only
  rw [if_neg (by omega), loop_absent db mode era max hmax 3 g [] hfail]
  simp

theorem first_fetch_cases (db : DB) (mode era : String) (g : Rand) (max : Int) :
    (∀ i, i < 3 → getRandomRow.attempt db mode era max g i = none) ∨
    ∃ i row, i < 3 ∧ (∀ j, j < i → getRandomRow.attempt db mode era max g j = none) ∧
      getRandomRow.attempt db mode era max g i = some row := by
  cases h0 : getRandomRow.attempt db mode era max g 0 with
  | some row => exact Or.inr ⟨0, row, by omega, fun j hj => by omega, h0⟩
  | none =>
    cases h1 : getRandomRow.attempt db mode era max g 1 with
    | some row =>
      refine Or.inr ⟨1, row, by omega, fun j hj => ?_, h1⟩
      have : j = 0 := by omega
      subst this; exact h0
    | none =>
      cases h2 : getRandomRow.attempt db mode era max g 2 with
      | some row =>
        refine Or.inr ⟨2, row, by omega, fun j hj => ?_, h2⟩
        have : j = 0 ∨ j = 1 := by omega
        rcases this with rfl | rfl
        · exact h0
        · exact h1
      | none =>
        refine Or.inl (fun i hi => ?_)
        have : i = 0 ∨ i = 1 ∨ i = 2 := by omega
        rcases this with rfl | rfl | rfl
        · exact h0
        · exact h1
        · exact h2

/-! ## The content built from a row -/

theorem poemText_pair (c1 : String) (g : Rand)
    (h : 2 ≤ (getRandomRow.cleanLines c1).length) :
    ∃ idx first second,
      idx % 2 = 0 ∧ idx + 1 < (getRandomRow.cleanLines c1).length ∧
      ((getRandomRow.cleanLines c1).length % 2 = 1 →
        idx + 1 < (getRandomRow.cleanLines c1).length - 1) ∧
      (getRandomRow.cleanLines c1)[idx]? = some first ∧
      (getRandomRow.cleanLines c1)[idx + 1]? = some second ∧
      getRandomRow.poemText c1 g = Outcome.ret (second ++ "   ۞   " ++ first) := by
  unfold getRandomRow.poemText
  generalize getRandomRow.cleanLines c1 = cl at h ⊢
  simp only [ge_iff_le, h, if_true]
  by_cases h2 : cl.length > 2
  · have hk : 0 < (if cl.length % 2 ≠ 0 then cl.length - 1 else cl.length) / 2 := by
      split <;> omega
    have hk2 : (0 : Int) <
        (((if cl.length % 2 ≠ 0 then cl.length - 1 else cl.length) / 2 : Nat) : Int) := by
      exact_mod_cast hk
    have hr := Nat.mod_lt (g 0) hk
    simp only [h2, if_true, Intn_of_pos g _ hk2, Option.map_some', Int.toNat_ofNat]
    generalize g 0 % ((if cl.length % 2 ≠ 0 then cl.length - 1 else cl.length) / 2) = r at hr ⊢
    have hb : r * 2 + 1 < cl.length ∧ (cl.length % 2 = 1 → r * 2 + 1 < cl.length - 1) := by
      split at hr <;> omega
    have hb0 : r * 2 < cl.length := by omega
    refine ⟨r * 2, cl[r * 2], cl[r * 2 + 1], by omega, hb.1, hb.2, ?_, ?_, ?_⟩
    · exact List.getElem?_eq_getElem hb0
    · exact List.getElem?_eq_getElem hb.1
    · rw [List.getElem?_eq_getElem hb0, List.getElem?_eq_getElem hb.1]
  · have h3 : cl.length = 2 := by omega
    have hb0 : 0 < cl.length := by omega
    have hb1 : 0 + 1 < cl.length := by omega
    simp only [h2, if_false]
    refine ⟨0, cl[0], cl[0 + 1], by omega, hb1, by omega, ?_, ?_, ?_⟩
    · exact List.getElem?_eq_getElem hb0
    · exact List.getElem?_eq_getElem hb1
    · rw [List.getElem?_eq_getElem hb0, List.getElem?_eq_getElem hb1]

theorem poemText_single (c1 : String) (g : Rand) (a : String)
    (h : getRandomRow.cleanLines c1 = [a]) :
    getRandomRow.poemText c1 g = Outcome.ret a := by
  unfold getRandomRow.poemText
  rw [h]
  rfl

theorem poemText_none (c1 : String) (g : Rand)
    (h : getRandomRow.cleanLines c1 = []) :
    getRandomRow.poemText c1 g = Outcome.ret c1 := by
  unfold getRandomRow.poemText
  rw [h]
  rfl

theorem rowContent_poems (row : Row) (g : Rand) (text : String)
    (h : getRandomRow.poemText row.c1 g = Outcome.ret text) :
    getRandomRow.rowContent "poems" row g
      = Outcome.ret { Text := text, Author := row.c2, Sub := row.c3 } := by
  unfold getRandomRow.rowContent
  rw [if_pos rfl, h]

theorem rowContent_other (mode : String) (row : Row) (g : Rand) (h : mode ≠ "poems") :
    getRandomRow.rowContent mode row g
      = Outcome.ret
          (if row.c3 = "hadith" then
            { Text := row.c1, Author := translateAuthor row.c2, Sub := "حديث نبوي" }
           else { Text := row.c1, Author := row.c2, Sub := "Wisdom" }) := by
  unfold getRandomRow.rowContent
  rw [if_neg h]
  split <;> rfl

theorem rowContent_total (mode : String) (row : Row) (g : Rand) :
    ∃ c, getRandomRow.rowContent mode row g = Outcome.ret c := by
  by_cases hm : mode = "poems"
  · subst hm
    by_cases h2 : 2 ≤ (getRandomRow.cleanLines row.c1).length
    · obtain ⟨idx, first, second, _, _, _, _, _, htext⟩ := poemText_pair row.c1 g h2
      exact ⟨_, rowContent_poems row g _ htext⟩
    · cases hcl : getRandomRow.cleanLines row.c1 with
      | nil => exact ⟨_, rowContent_poems row g _ (poemText_none row.c1 g hcl)⟩
      | cons a rest =>
        cases rest with
        | nil => exact ⟨_, rowContent_poems row g _ (poemText_single row.c1 g a hcl)⟩
        | cons b rest =>
          rw [hcl] at h2
          simp at h2
  · exact ⟨_, rowContent_other mode row g hm⟩

theorem getRandomRow_queries {db : DB} {mode era : String} (g : Rand) {c : Int}
    (hcount : getRandomRow.count db mode era = some c) (hpos : 0 < c) :
    ∃ k, 1 ≤ k ∧ k ≤ 3 ∧
      (getRandomRow db mode era g).queries
        = (List.range k).map (getRandomRow.query mode era c g) := by
  rcases first_fetch_cases db mode era g c with hfail | ⟨i, row, hi, hfail, hrow⟩
  · refine ⟨3, by omega, by omega, ?_⟩
    rw [getRandomRow_all_fail hcount hpos hfail]
  · obtain ⟨content, hcontent⟩ := rowContent_total mode row (Rand.drop g (i + 1))
    refine ⟨i + 1, by omega, by omega, ?_⟩
    rw [getRandomRow_found ⟨hcount, hpos, hi, hfail, hrow⟩ hcontent]

theorem append_sep_ne_empty (a b : String) : a ++ "   ۞   " ++ b ≠ "" := by
  intro h
  have hl := congrArg String.length h
  simp only [String.length_append] at hl
  have h7 : ("   ۞   " : String).length = 7 := by decide
  have h0 : ("" : String).length = 0 := by decide
  omega

theorem poemText_ne_empty (c1 : String) (g : Rand) (text : String)
    (h : getRandomRow.poemText c1 g = Outcome.ret text) (hc1 : c1 ≠ "") : text ≠ "" := by
  by_cases h2 : 2 ≤ (getRandomRow.cleanLines c1).length
  · obtain ⟨idx, first, second, _, _, _, _, _, htext⟩ := poemText_pair c1 g h2
    rw [htext] at h
    cases h
    exact append_sep_ne_empty _ _
  · cases hcl : getRandomRow.cleanLines c1 with
    | nil =>
      rw [poemText_none c1 g hcl] at h
      cases h
      exact hc1
    | cons a rest =>
      cases rest with
      | nil =>
        rw [poemText_single c1 g a hcl] at h
        have hat : a = text := by
          cases h
          rfl
        have hmem : a ∈ getRandomRow.cleanLines c1 := by rw [hcl]; simp
        have hlen := mem_cleanLines_len hmem
        intro ha
        rw [hat, (len_eq_zero_iff text).mpr ha] at hlen
        omega
      | cons b rest =>
        rw [hcl] at h2
        simp at h2

/-! ## The mode chosen by `main` -/

theorem main_mode_values (p q h : Bool) (era : String) (g : Rand) :
    main.mode p q h era g = Outcome.ret "poems" ∨
    main.mode p q h era g = Outcome.ret "quotes" ∨
    main.mode p q h era g = Outcome.ret "hadith" := by
  unfold main.mode
  split
  · exact Or.inl rfl
  · split
    · exact Or.inr (Or.inl rfl)
    · split
      · exact Or.inr (Or.inr rfl)
      · have hI : rand.Intn g 3 = some (g 0 % 3, Rand.drop g 1) :=
          Intn_of_pos g 3 (by decide)
        have hr : g 0 % 3 = 0 ∨ g 0 % 3 = 1 ∨ g 0 % 3 = 2 := by omega
        rcases hr with hr | hr | hr <;> simp [hI, hr]

/-! ## Poem line cleaning -/

/-- C3 (as the code does it): the raw text is cut at every newline (the pieces
joined by newlines give the text back and no piece holds a newline); the
clean lines are the trimmed pieces, in order, whose length in UTF-8 bytes
(Go `len`) exceeds 2.  Hence a piece whose trimmed form has more than two
characters is always kept, and a piece is kept exactly when the byte length
of its trimmed form exceeds 2. -/
theorem cleanLines_keeps_by_byte_length (c1 : String) :
    List.intercalate ['\n'] ((strings.Split c1 '\n').map String.data) = c1.data ∧
    (∀ l ∈ strings.Split c1 '\n', '\n' ∉ l.data) ∧
    getRandomRow.cleanLines c1
      = ((strings.Split c1 '\n').map strings.TrimSpace).filter
          (fun t => decide (2 < len t)) ∧
    (∀ l ∈ strings.Split c1 '\n',
      (strings.TrimSpace l ∈ getRandomRow.cleanLines c1 ↔ 2 < len (strings.TrimSpace l))) ∧
    (∀ l ∈ strings.Split c1 '\n', 2 < (strings.TrimSpace l).length →
      strings.TrimSpace l ∈ getRandomRow.cleanLines c1) := by
  have hmem : ∀ l ∈ strings.Split c1 '\n',
      (strings.TrimSpace l ∈ getRandomRow.cleanLines c1 ↔ 2 < len (strings.TrimSpace l)) := by
    intro l hl
    constructor
    · exact mem_cleanLines_len
    · intro h
      rw [cleanLines_eq]
      exact List.mem_filter.mpr ⟨List.mem_map_of_mem _ hl, by simpa using h⟩
  refine ⟨?_, ?_, cleanLines_eq c1, hmem, ?_⟩
  · have h := splitChars_intercalate '\n' c1.data
    unfold strings.Split
    rw [List.map_map]
    have hid : (String.data ∘ String.mk) = id := by
      funext cs
      rfl
    rw [hid, List.map_id]
    exact h
  · intro l hl
    unfold strings.Split at hl
    rcases List.mem_map.mp hl with ⟨cs, hcs, rfl⟩
    exact splitChars_no_sep '\n' c1.data cs hcs
  · intro l hl h
    exact (hmem l hl).mpr (lt_of_lt_of_le h (len_ge_length _))

/-- C3, witness: in the text of four lines "ab", " abc ", two Arabic letters,
one Arabic letter, the clean lines are "abc" and the line of two Arabic
letters (4 bytes); "ab" (2 bytes) and the single letter (2 bytes) are dropped. -/
theorem cleanLines_keeps_by_byte_length_witness :
    "قم" ∈ getRandomRow.cleanLines "ab\n abc \nقم\nق" ∧
    getRandomRow.cleanLines "ab\n abc \nقم\nق" = ["abc", "قم"] :=
  ⟨((cleanLines_keeps_by_byte_length "ab\n abc \nقم\nق").2.2.2.1 "قم" (by decide)).mpr
      (by decide),
    by decide⟩

/-- C3, counterexample: a line made of exactly two characters (two Arabic
letters) is kept, although its trimmed length in characters does not exceed 2. -/
theorem cleanLines_two_arabic_letters_kept :
    (strings.TrimSpace "قم").length = 2 ∧
    strings.Split "قم" '\n' = ["قم"] ∧
    getRandomRow.cleanLines "قم" = ["قم"] := by
  decide

/-! ## `translateAuthor` -/

/-- C4: when the trimmed name is one of the ten keys of the table the result
is the Arabic name of that key, otherwise it is the name itself, untrimmed. -/
theorem translateAuthor_table (name : String) :
    (strings.TrimSpace name = "Bukhari" → translateAuthor name = "الإمام البخاري") ∧
    (strings.TrimSpace name = "Muslim" → translateAuthor name = "الإمام مسلم") ∧
    (strings.TrimSpace name = "Tirmidhi" → translateAuthor name = "الترمذي") ∧
    (strings.TrimSpace name = "Abu Dawood" → translateAuthor name = "أبو داود") ∧
    (strings.TrimSpace name = "Abudawood" → translateAuthor name = "أبو داود") ∧
    (strings.TrimSpace name = "Ibn Majah" → translateAuthor name = "ابن ماجه") ∧
    (strings.TrimSpace name = "Ibnmajah" → translateAuthor name = "ابن ماجه") ∧
    (strings.TrimSpace name = "Nasai" → translateAuthor name = "النسائي") ∧
    (strings.TrimSpace name = "Malik" → translateAuthor name = "الإمام مالك") ∧
    (strings.TrimSpace name = "Ahmed" → translateAuthor name = "الإمام أحمد") ∧
    (strings.TrimSpace name ∉ ["Bukhari", "Muslim", "Tirmidhi", "Abu Dawood", "Abudawood",
        "Ibn Majah", "Ibnmajah", "Nasai", "Malik", "Ahmed"] →
      translateAuthor name = name) := by
  refine ⟨?_, ?_, ?_, ?_, ?_, ?_, ?_, ?_, ?_, ?_, ?_⟩
  case refine_11 =>
    intro h
    simp only [List.mem_cons, List.mem_singleton, List.not_mem_nil, or_false, not_or] at h
    obtain ⟨h1, h2, h3, h4, h5, h6, h7, h8, h9, h10⟩ := h
    have e : ∀ k : String, strings.TrimSpace name ≠ k →
        (strings.TrimSpace name == k) = false := fun k hk => beq_eq_false_iff_ne.mpr hk
    unfold translateAuthor
    simp only [translations, List.lookup, e _ h1, e _ h2, e _ h3, e _ h4, e _ h5, e _ h6,
      e _ h7, e _ h8, e _ h9, e _ h10]
  all_goals
    intro h
    unfold translateAuthor
    rw [h]
    rfl

/-- C4, witness: " Bukhari " (with surrounding blanks) is translated,
both spellings of Abu Dawood and of Ibn Majah agree, and "Unknown Name" is
returned as it is. -/
theorem translateAuthor_table_witness :
    translateAuthor " Bukhari " = "الإمام البخاري" ∧
    translateAuthor "Abu Dawood" = translateAuthor "Abudawood" ∧
    translateAuthor "Ibn Majah" = translateAuthor "Ibnmajah" ∧
    translateAuthor "Unknown Name" = "Unknown Name" :=
  ⟨(translateAuthor_table " Bukhari ").1 (by decide),
    by decide, by decide,
    (translateAuthor_table "Unknown Name").2.2.2.2.2.2.2.2.2.2 (by decide)⟩

/-! ## Poems -/

/-- C1: when the fetched poem has `n ≥ 2` clean lines, whatever the random
draws, `getRandomRow` returns the Text `cleanLines[idx+1] ++ "   ۞   " ++
cleanLines[idx]` for an even `idx` with `idx + 1 < n` (both indices in bounds);
for odd `n` even `idx + 1 < n - 1`, so the last line is not used; for `n = 5`
`idx` is 0 or 2; for `n = 2`, lines `[a, b]`, the Text is `b ++ "   ۞   " ++ a`. -/
theorem getRandomRow_couplet (db : DB) (eraFilter : String) (g : Rand) (max : Int) (i : Nat)
    (row : Row) (hfetch : getRandomRow.FetchesAt db "poems" eraFilter g max i row)
    (hn : 2 ≤ (getRandomRow.cleanLines row.c1).length) :
    ∃ idx first second,
      idx % 2 = 0 ∧ idx + 1 < (getRandomRow.cleanLines row.c1).length ∧
      ((getRandomRow.cleanLines row.c1).length % 2 = 1 →
        idx + 1 < (getRandomRow.cleanLines row.c1).length - 1) ∧
      ((getRandomRow.cleanLines row.c1).length = 5 → idx = 0 ∨ idx = 2) ∧
      (∀ a b, getRandomRow.cleanLines row.c1 = [a, b] → idx = 0 ∧ first = a ∧ second = b) ∧
      (getRandomRow.cleanLines row.c1)[idx]? = some first ∧
      (getRandomRow.cleanLines row.c1)[idx + 1]? = some second ∧
      (getRandomRow db "poems" eraFilter g).result
        = Outcome.ret (some { Text := second ++ "   ۞   " ++ first,
                              Author := row.c2, Sub := row.c3 }) := by
  obtain ⟨idx, first, second, heven, hlt, hodd, hfirst, hsecond, htext⟩ :=
    poemText_pair row.c1 (Rand.drop g (i + 1)) hn
  refine ⟨idx, first, second, heven, hlt, hodd, ?_, ?_, hfirst, hsecond, ?_⟩
  · intro h5
    have := hodd (by omega)
    omega
  · intro a b hab
    rw [hab] at hlt hfirst hsecond
    have h0 : idx = 0 := by
      simp only [List.length_cons, List.length_nil] at hlt
      omega
    subst h0
    simp only [List.getElem?_cons_zero, List.getElem?_cons_succ, Option.some.injEq]
      at hfirst hsecond
    exact ⟨rfl, hfirst.symm, hsecond.symm⟩
  · rw [getRandomRow_found hfetch (rowContent_poems row _ _ htext)]

/-- C1, witness: the poem of five clean lines stored under id 1. -/
theorem getRandomRow_couplet_witness :
    getRandomRow.FetchesAt dbPoems "poems" "" (fun _ => 0) 3 0 poemOfFive ∧
    ∃ idx first second,
      idx % 2 = 0 ∧ idx + 1 < (getRandomRow.cleanLines poemOfFive.c1).length ∧
      ((getRandomRow.cleanLines poemOfFive.c1).length % 2 = 1 →
        idx + 1 < (getRandomRow.cleanLines poemOfFive.c1).length - 1) ∧
      ((getRandomRow.cleanLines poemOfFive.c1).length = 5 → idx = 0 ∨ idx = 2) ∧
      (∀ a b, getRandomRow.cleanLines poemOfFive.c1 = [a, b] →
        idx = 0 ∧ first = a ∧ second = b) ∧
      (getRandomRow.cleanLines poemOfFive.c1)[idx]? = some first ∧
      (getRandomRow.cleanLines poemOfFive.c1)[idx + 1]? = some second ∧
      (getRandomRow dbPoems "poems" "" (fun _ => 0)).result
        = Outcome.ret (some { Text := second ++ "   ۞   " ++ first,
                              Author := poemOfFive.c2, Sub := poemOfFive.c3 }) :=
  ⟨by decide,
    getRandomRow_couplet dbPoems "" (fun _ => 0) 3 0 poemOfFive (by decide) (by decide)⟩

/-- C2: when the fetched poem has exactly one clean line `a` the returned Text
is `a`; when it has none the Text is the raw `poem_text`; in both cases Author
is the poet name column and Sub the poet era column. -/
theorem getRandomRow_short_poem (db : DB) (eraFilter : String) (g : Rand) (max : Int)
    (i : Nat) (row : Row) (hfetch : getRandomRow.FetchesAt db "poems" eraFilter g max i row) :
    (∀ a, getRandomRow.cleanLines row.c1 = [a] →
      (getRandomRow db "poems" eraFilter g).result
        = Outcome.ret (some { Text := a, Author := row.c2, Sub := row.c3 })) ∧
    (getRandomRow.cleanLines row.c1 = [] →
      (getRandomRow db "poems" eraFilter g).result
        = Outcome.ret (some { Text := row.c1, Author := row.c2, Sub := row.c3 })) := by
  constructor
  · intro a ha
    rw [getRandomRow_found hfetch (rowContent_poems row _ _ (poemText_single row.c1 _ a ha))]
  · intro h0
    rw [getRandomRow_found hfetch (rowContent_poems row _ _ (poemText_none row.c1 _ h0))]

/-- C2, witness: the one-line poem under id 2 and the poem without a clean
line under id 3. -/
theorem getRandomRow_short_poem_witness :
    (getRandomRow dbPoems "poems" "" (fun _ => 1)).result
      = Outcome.ret (some { Text := "only line", Author := "Al-Mutanabbi", Sub := "Abbasid" }) ∧
    (getRandomRow dbPoems "poems" "" (fun _ => 2)).result
      = Outcome.ret (some { Text := " ab\n\n..", Author := "Al-Mutanabbi", Sub := "Abbasid" }) :=
  ⟨(getRandomRow_short_poem dbPoems "" (fun _ => 1) 3 0 poemOfOne (by decide)).1
      "only line" (by decide),
    (getRandomRow_short_poem dbPoems "" (fun _ => 2) 3 0 poemOfNone (by decide)).2
      (by decide)⟩

/-! ## Quotes and hadith -/

/-- C5: for a row fetched in mode quotes or hadith the Text is the text column;
when the category column is "hadith" Sub is the Arabic hadith label and Author
is `translateAuthor` of the author column, otherwise Sub is "Wisdom" and Author
is the author column. -/
theorem getRandomRow_quote_row (db : DB) (mode eraFilter : String) (g : Rand) (max : Int)
    (i : Nat) (row : Row) (hmode : mode = "quotes" ∨ mode = "hadith")
    (hfetch : getRandomRow.FetchesAt db mode eraFilter g max i row) :
    (row.c3 = "hadith" →
      (getRandomRow db mode eraFilter g).result
        = Outcome.ret (some { Text := row.c1, Author := translateAuthor row.c2,
                              Sub := "حديث نبوي" })) ∧
    (row.c3 ≠ "hadith" →
      (getRandomRow db mode eraFilter g).result
        = Outcome.ret (some { Text := row.c1, Author := row.c2, Sub := "Wisdom" })) := by
  have hne : mode ≠ "poems" := by
    rcases hmode with h | h <;> (subst h; decide)
  have hres := getRandomRow_found hfetch (rowContent_other mode row _ hne)
  constructor
  · intro h
    rw [hres, if_pos h]
  · intro h
    rw [hres, if_neg h]

/-- C5, witness: a hadith row in mode hadith and a wisdom row in mode quotes. -/
theorem getRandomRow_quote_row_witness :
    (getRandomRow dbHadith "hadith" "" (fun _ => 0)).result
      = Outcome.ret (some { Text := "إنما الأعمال بالنيات", Author := "الإمام البخاري",
                            Sub := "حديث نبوي" }) ∧
    (getRandomRow dbQuotesOnly "quotes" "" (fun _ => 0)).result
      = Outcome.ret (some { Text := "Knowledge is light", Author := "Anonymous",
                            Sub := "Wisdom" }) :=
  ⟨(getRandomRow_quote_row dbHadith "hadith" "" (fun _ => 0) 1 0 hadithRow
      (Or.inr rfl) (by decide)).1 (by decide),
    (getRandomRow_quote_row dbQuotesOnly "quotes" "" (fun _ => 0) 1 0
      { c1 := "Knowledge is light", c2 := "Anonymous", c3 := "wisdom" }
      (Or.inl rfl) (by decide)).2 (by decide)⟩

/-! ## `main` -/

/-- C6: the poems flag or a non-empty era filter gives poems whatever the other
flags; else the quotes flag gives quotes, also with the hadith flag; else the
hadith flag gives hadith; else the mode is the entry of
`[poems, quotes, hadith]` at the random pick. -/
theorem main_mode_precedence (showPoems showQuotes showHadith : Bool) (eraFilter : String)
    (g : Rand) :
    (showPoems = true ∨ eraFilter ≠ "" →
      main.mode showPoems showQuotes showHadith eraFilter g = Outcome.ret "poems") ∧
    (showPoems = false → eraFilter = "" → showQuotes = true →
      main.mode showPoems showQuotes showHadith eraFilter g = Outcome.ret "quotes") ∧
    (showPoems = false → eraFilter = "" → showQuotes = false → showHadith = true →
      main.mode showPoems showQuotes showHadith eraFilter g = Outcome.ret "hadith") ∧
    (showPoems = false → eraFilter = "" → showQuotes = false → showHadith = false →
      (g 0 % 3 = 0 →
        main.mode showPoems showQuotes showHadith eraFilter g = Outcome.ret "poems") ∧
      (g 0 % 3 = 1 →
        main.mode showPoems showQuotes showHadith eraFilter g = Outcome.ret "quotes") ∧
      (g 0 % 3 = 2 →
        main.mode showPoems showQuotes showHadith eraFilter g = Outcome.ret "hadith")) := by
  refine ⟨?_, ?_, ?_, ?_⟩
  · intro h
    unfold main.mode
    rw [if_pos h]
  · intro hp he hq
    subst hp he hq
    rfl
  · intro hp he hq hh
    subst hp he hq hh
    rfl
  · intro hp he hq hh
    subst hp he hq hh
    have hI : rand.Intn g 3 = some (g 0 % 3, Rand.drop g 1) := Intn_of_pos g 3 (by decide)
    refine ⟨?_, ?_, ?_⟩ <;>
    · intro hr
      unfold main.mode
      simp [hI, hr]

/-- C6, witness: poems and quotes flags together give poems, an era filter
alone gives poems, quotes and hadith flags together give quotes. -/
theorem main_mode_precedence_witness :
    main.mode true true false "" (fun _ => 1) = Outcome.ret "poems" ∧
    main.mode false false true "Abbasid" (fun _ => 1) = Outcome.ret "poems" ∧
    main.mode false true true "" (fun _ => 2) = Outcome.ret "quotes" ∧
    main.mode false false true "" (fun _ => 0) = Outcome.ret "hadith" ∧
    main.mode false false false "" (fun _ => 1) = Outcome.ret "quotes" :=
  ⟨(main_mode_precedence true true false "" (fun _ => 1)).1 (Or.inl rfl),
    (main_mode_precedence false false true "Abbasid" (fun _ => 1)).1 (Or.inr (by decide)),
    (main_mode_precedence false true true "" (fun _ => 2)).2.1 rfl rfl rfl,
    (main_mode_precedence false false true "" (fun _ => 0)).2.2.1 rfl rfl rfl rfl,
    ((main_mode_precedence false false false "" (fun _ => 1)).2.2.2 rfl rfl rfl rfl).2.1
      (by decide)⟩

/-- C7, the code at the failing input: `main.mode` never yields "all", so the
retry of lines 279-284 is never taken and an absent first selection always ends
in the warning.  Without flags, with the pick falling on poems, an empty poetry
table and one wisdom quote, `getRandomRow` is absent for poems and yields a
Content for quotes, yet `main` writes the warning. -/
theorem main_fallback_not_taken :
    (∀ (showPoems showQuotes showHadith : Bool) (eraFilter : String) (g : Rand),
      main.mode showPoems showQuotes showHadith eraFilter g ≠ Outcome.ret "all") ∧
    (∀ (showPoems showQuotes showHadith : Bool) (eraFilter : String) (db : DB)
        (g0 g1 g2 g3 : Rand) (mode : String),
      main.mode showPoems showQuotes showHadith eraFilter g0 = Outcome.ret mode →
      (getRandomRow db mode eraFilter g1).result = Outcome.ret none →
      main showPoems showQuotes showHadith eraFilter db g0 g1 g2 g3
        = Outcome.ret Output.noContent) ∧
    main.mode false false false "" (fun _ => 0) = Outcome.ret "poems" ∧
    (getRandomRow dbQuotesOnly "poems" "" (fun _ => 0)).result = Outcome.ret none ∧
    (getRandomRow dbQuotesOnly "quotes" "" (fun _ => 0)).result
      = Outcome.ret (some { Text := "Knowledge is light", Author := "Anonymous",
                            Sub := "Wisdom" }) ∧
    main false false false "" dbQuotesOnly (fun _ => 0) (fun _ => 0) (fun _ => 0) (fun _ => 0)
      = Outcome.ret Output.noContent := by
  have hall : ∀ (p q h : Bool) (era : String) (g : Rand),
      main.mode p q h era g ≠ Outcome.ret "all" := by
    intro p q h era g
    rcases main_mode_values p q h era g with hm | hm | hm <;>
    · rw [hm]
      decide
  refine ⟨hall, ?_, by decide, by decide, by decide, by decide⟩
  intro p q h era db g0 g1 g2 g3 mode hmode habs
  have hne : mode ≠ "all" := by
    intro hm
    rw [hm] at hmode
    exact hall p q h era g0 hmode
  unfold main
  rw [hmode]
  simp only
  unfold main.show
  rw [habs]
  simp [hne]

/-! ## The fields of the returned Content -/

/-- C8, counterexample: the count is positive and the first fetch succeeds,
on a row with empty text and author columns; the returned Content has an
empty Text and an empty Author. -/
theorem getRandomRow_empty_fields :
    getRandomRow.FetchesAt dbBlankQuote "quotes" "" (fun _ => 0) 1 0
      { c1 := "", c2 := "", c3 := "wisdom" } ∧
    (getRandomRow dbBlankQuote "quotes" "" (fun _ => 0)).result
      = Outcome.ret (some { Text := "", Author := "", Sub := "Wisdom" }) := by
  decide

/-- C8 (as the code does it): when the count is positive and a fetch succeeds
within the three attempts, `getRandomRow` returns a Content; its Sub is
non-empty in every mode other than poems, and its Text, Author and Sub are
non-empty whenever the first, second and third column of the fetched row,
respectively, are non-empty. -/
theorem getRandomRow_nonempty_fields (db : DB) (mode eraFilter : String) (g : Rand)
    (max : Int) (i : Nat) (row : Row)
    (hfetch : getRandomRow.FetchesAt db mode eraFilter g max i row) :
    ∃ c, (getRandomRow db mode eraFilter g).result = Outcome.ret (some c) ∧
      (mode ≠ "poems" → c.Sub ≠ "") ∧
      (row.c1 ≠ "" → c.Text ≠ "") ∧
      (row.c2 ≠ "" → c.Author ≠ "") ∧
      (row.c3 ≠ "" → c.Sub ≠ "") := by
  by_cases hm : mode = "poems"
  · subst hm
    obtain ⟨c, hc⟩ := rowContent_total "poems" row (Rand.drop g (i + 1))
    refine ⟨c, by rw [getRandomRow_found hfetch hc], fun h => absurd rfl h, ?_, ?_, ?_⟩
    all_goals
      unfold getRandomRow.rowContent at hc
      rw [if_pos rfl] at hc
      cases htext : getRandomRow.poemText row.c1 (Rand.drop g (i + 1)) with
      | panic =>
        rw [htext] at hc
        cases hc
      | ret text =>
        rw [htext] at hc
        cases hc
        first
          | exact fun h1 => poemText_ne_empty row.c1 _ text htext h1
          | exact fun h => h
  · have hc := rowContent_other mode row (Rand.drop g (i + 1)) hm
    refine ⟨_, by rw [getRandomRow_found hfetch hc], ?_, ?_, ?_, ?_⟩
    · intro _
      split
      · show ("حديث نبوي" : String) ≠ ""
        decide
      · show ("Wisdom" : String) ≠ ""
        decide
    · intro h1
      split <;> exact h1
    · intro h2
      split
      · exact translateAuthor_ne_empty row.c2 h2
      · exact h2
    · intro _
      split
      · show ("حديث نبوي" : String) ≠ ""
        decide
      · show ("Wisdom" : String) ≠ ""
        decide

/-- C8, witness: the hadith row of the sample table. -/
theorem getRandomRow_nonempty_fields_witness :
    getRandomRow.FetchesAt dbHadith "hadith" "" (fun _ => 0) 1 0 hadithRow ∧
    ∃ c, (getRandomRow dbHadith "hadith" "" (fun _ => 0)).result = Outcome.ret (some c) ∧
      ("hadith" ≠ "poems" → c.Sub ≠ "") ∧
      (hadithRow.c1 ≠ "" → c.Text ≠ "") ∧
      (hadithRow.c2 ≠ "" → c.Author ≠ "") ∧
      (hadithRow.c3 ≠ "" → c.Sub ≠ "") :=
  ⟨by decide,
    getRandomRow_nonempty_fields dbHadith "hadith" "" (fun _ => 0) 1 0 hadithRow (by decide)⟩

/-! ## Absent results and the queries issued -/

/-- Outside the data model of the specification (1-based identifiers, counts
that are never negative): with `MAX(id) = -1` only the guard `max == 0` is
passed and the call panics in `rand.Intn`. -/
theorem getRandomRow_negative_count_panics :
    getRandomRow.count dbNegativeId "poems" "" = some (-1) ∧
    (getRandomRow dbNegativeId "poems" "" (fun _ => 0)).result = Outcome.panic := by
  decide

/-- C9: on every count of the data model, that is when the count, if the count
query succeeds, is not negative (`COUNT(*)`, and `MAX(id)` of a 1-based
identifier space), `getRandomRow` returns; it returns absent exactly when the count
query fails, or the count is zero, or the data queries of the three drawn
offsets all fail; when iteration `i` is the first whose fetch succeeds it
returns the Content built from that row, having issued `i + 1` data queries;
when all three fetches fail it has issued exactly three; and it never issues
more than three data queries. -/
theorem getRandomRow_absent_iff (db : DB) (mode eraFilter : String) (g : Rand)
    (hcount : ∀ max, getRandomRow.count db mode eraFilter = some max → 0 ≤ max) :
    (∃ res, (getRandomRow db mode eraFilter g).result = Outcome.ret res) ∧
    ((getRandomRow db mode eraFilter g).result = Outcome.ret none ↔
      getRandomRow.count db mode eraFilter = none ∨
      getRandomRow.count db mode eraFilter = some 0 ∨
      ∃ max, getRandomRow.count db mode eraFilter = some max ∧
        ∀ i, i < 3 → getRandomRow.attempt db mode eraFilter max g i = none) ∧
    (∀ max i row, getRandomRow.FetchesAt db mode eraFilter g max i row →
      ∃ c, getRandomRow.rowContent mode row (Rand.drop g (i + 1)) = Outcome.ret c ∧
        (getRandomRow db mode eraFilter g).result = Outcome.ret (some c) ∧
        (getRandomRow db mode eraFilter g).queries
          = (List.range (i + 1)).map (getRandomRow.query mode eraFilter max g)) ∧
    (∀ max, getRandomRow.count db mode eraFilter = some max → 0 < max →
      (∀ i, i < 3 → getRandomRow.attempt db mode eraFilter max g i = none) →
      (getRandomRow db mode eraFilter g).queries
        = (List.range 3).map (getRandomRow.query mode eraFilter max g)) ∧
    (getRandomRow db mode eraFilter g).queries.length ≤ 3 := by
  have hthree : ∀ max, getRandomRow.count db mode eraFilter = some max → 0 < max →
      (∀ i, i < 3 → getRandomRow.attempt db mode eraFilter max g i = none) →
      (getRandomRow db mode eraFilter g).queries
        = (List.range 3).map (getRandomRow.query mode eraFilter max g) := by
    intro max hc hp hfail
    rw [getRandomRow_all_fail hc hp hfail]
  have hfound : ∀ max i row, getRandomRow.FetchesAt db mode eraFilter g max i row →
      ∃ c, getRandomRow.rowContent mode row (Rand.drop g (i + 1)) = Outcome.ret c ∧
        (getRandomRow db mode eraFilter g).result = Outcome.ret (some c) ∧
        (getRandomRow db mode eraFilter g).queries
          = (List.range (i + 1)).map (getRandomRow.query mode eraFilter max g) := by
    intro max i row hfetch
    obtain ⟨c, hc⟩ := rowContent_total mode row (Rand.drop g (i + 1))
    exact ⟨c, hc, by rw [getRandomRow_found hfetch hc], by rw [getRandomRow_found hfetch hc]⟩
  cases hcnt : getRandomRow.count db mode eraFilter with
  | none =>
    have hrun : getRandomRow db mode eraFilter g
        = { result := Outcome.ret none, queries := [] } := by
      rw [getRandomRow_unfold, hcnt]
    refine ⟨⟨none, by rw [hrun]⟩, ?_, hfound, fun m hm => hthree m (hcnt.trans hm), by rw [hrun]; simp⟩
    rw [hrun]
    simp
  | some max =>
    have hnonneg := hcount max hcnt
    by_cases hzero : max = 0
    · subst hzero
      have hrun : getRandomRow db mode eraFilter g
          = { result := Outcome.ret none, queries := [] } := by
        rw [getRandomRow_unfold, hcnt]
        rfl
      refine ⟨⟨none, by rw [hrun]⟩, ?_, hfound, fun m hm => hthree m (hcnt.trans hm), by rw [hrun]; simp⟩
      rw [hrun]
      simp
    · have hpos : 0 < max := by omega
      have hcnt2 : getRandomRow.count db mode eraFilter = some max := hcnt
      obtain ⟨k, _, hk, hq⟩ := getRandomRow_queries g hcnt2 hpos
      have hlen : (getRandomRow db mode eraFilter g).queries.length ≤ 3 := by
        rw [hq]
        simp only [List.length_map, List.length_range]
        exact hk
      refine ⟨?_, ?_, hfound, fun m hm => hthree m (hcnt.trans hm), hlen⟩
      · rcases first_fetch_cases db mode eraFilter g max with hfail | ⟨i, row, hi, hfail, hrow⟩
        · exact ⟨none, by rw [getRandomRow_all_fail hcnt2 hpos hfail]⟩
        · obtain ⟨c, _, hres, _⟩ := hfound max i row ⟨hcnt2, hpos, hi, hfail, hrow⟩
          exact ⟨some c, hres⟩
      · constructor
        · intro habs
          rcases first_fetch_cases db mode eraFilter g max with hfail | ⟨i, row, hi, hfail, hrow⟩
          · exact Or.inr (Or.inr ⟨max, rfl, hfail⟩)
          · obtain ⟨c, _, hres, _⟩ := hfound max i row ⟨hcnt2, hpos, hi, hfail, hrow⟩
            rw [hres] at habs
            cases habs
        · intro h
          rcases h with h | h | ⟨m, hm, hfail⟩
          · cases h
          · cases h
            exact absurd rfl hzero
          · cases hm
            rw [getRandomRow_all_fail hcnt2 hpos hfail]

/-- C9, witness: the sample poetry table, whose count is 3; the first draw
fetches the poem of id 1 with a single data query. -/
theorem getRandomRow_absent_iff_witness :
    (∀ max, getRandomRow.count dbPoems "poems" "" = some max → 0 ≤ max) ∧
    (∃ res, (getRandomRow dbPoems "poems" "" (fun _ => 0)).result = Outcome.ret res) ∧
    (getRandomRow dbPoems "poems" "" (fun _ => 0)).queries.length ≤ 3 :=
  have hcount : ∀ max, getRandomRow.count dbPoems "poems" "" = some max → 0 ≤ max := by
    intro max h
    have h3 : getRandomRow.count dbPoems "poems" "" = some 3 := by decide
    rw [h3] at h
    cases h
    decide
  ⟨hcount,
    (getRandomRow_absent_iff dbPoems "poems" "" (fun _ => 0) hcount).1,
    (getRandomRow_absent_iff dbPoems "poems" "" (fun _ => 0) hcount).2.2.2.2⟩

end Hikma
